import Mathlib

/-!
Shallow embedding of the brand-extraction core of `src/lib/extractors.js`
(repository `xirothedev/dembrandt`), covering the parts of the code that the
frozen claims are about:

* `normalizeColor` (lines 616-625) and the inline duplicate of it in the
  hover/focus merge (lines 304-311);
* `hexToRgb` / `deltaE` (lines 782-805), modelled as the squared RGB distance
  `deltaE2` (all uses in the source compare `deltaE < 15`, which for integer
  RGB channels is exactly `deltaE2 < 225`; the unparseable-input result 999
  becomes `999 ^ 2`);
* the frequency threshold and structural-color filter of `extractColors`
  (lines 759-818), with the JS float expressions `totalElements * 0.01`,
  `(count / totalElements) * 100 > 40` and `score < count * 1.2` replaced by
  the exact integer comparisons they compute at the integer inputs that arise
  (`Math.floor(n * 0.01) = n / 100`, `5 * count > 2 * total`,
  `5 * score < 6 * count`; IEEE doubles agree with the exact rationals at
  every such comparison for all realistic magnitudes, see the comments at the
  definitions);
* the perceptual deduplication scan of `extractColors` (lines 829-852);
* the hover/focus color merge (lines 242-321) and the element-index cutoff
  of its page-side loop;
* the dark-mode palette merge (lines 355-372);
* the navigation/validation retry loop of `extractBranding` (lines 79-175).

DOM, CSSOM and stylesheet traversal are a foreign-runtime capability; where a
claim only concerns the post-traversal logic, the traversal result is taken
as the input of the embedded function and this is noted at the definition.
-/

namespace Dembrandt

/-- Model of JS `String.prototype.toLowerCase` on a character, for the ASCII
range: code points 65-90 map to 97-122, everything else is unchanged.  (The
full JS function also lowercases non-ASCII letters; every string handled by
the claims is ASCII.) -/
def toLowerChar (c : Char) : Char :=
  if 65 ≤ c.toNat ∧ c.toNat ≤ 90 then Char.ofNat (c.toNat + 32) else c

/-- Model of JS `String.prototype.toLowerCase` (ASCII range). -/
def toLowerStr (s : String) : String :=
  ⟨s.data.map toLowerChar⟩

/-- Decimal digit test, as in the regex class `\d`. -/
def isDigitChar (c : Char) : Bool :=
  '0' ≤ c && c ≤ '9'

/-- Model of the regex class `\s` for the whitespace characters that occur in
CSS color strings (space, tab, newline, vertical tab, form feed, carriage
return, no-break space).  JS `\s` also contains rarer Unicode spaces, none of
which can appear in the inputs considered. -/
def jsWhitespace (c : Char) : Bool :=
  c = ' ' || c = '\t' || c = '\n' || c = '\x0b' || c = '\x0c' || c = '\r' || c = ' '

/-- After the literal `rgb` of the regex `rgba?\(` in `normalizeColor`
(extractors.js line 617): an optional `a` followed by a mandatory `(`. -/
def afterRGB (s : List Char) : Option (List Char) :=
  match s with
  | 'a' :: '(' :: r => some r
  | '(' :: r => some r
  | _ => none

/-- The part `(\d+),\s*(\d+),\s*(\d+)` of the regex in `normalizeColor`:
three capture groups of digits separated by a comma and optional whitespace.
Greedy matching of `\d+`/`\s*` followed by a character outside the class is
equivalent to taking the maximal run, since no backtracked shorter run can
make the next literal match. -/
def matchTriple (s : List Char) : Option (List Char × List Char × List Char) :=
  let (d1, r1) := s.span isDigitChar
  if d1 = [] then none else
  match r1 with
  | ',' :: r2 =>
    let r3 := r2.dropWhile jsWhitespace
    let (d2, r4) := r3.span isDigitChar
    if d2 = [] then none else
    match r4 with
    | ',' :: r5 =>
      let r6 := r5.dropWhile jsWhitespace
      let (d3, _) := r6.span isDigitChar
      if d3 = [] then none else some (d1, d2, d3)
    | _ => none
  | _ => none

/-- Attempt to match `rgba?\((\d+),\s*(\d+),\s*(\d+)` at the head of the
character list. -/
def matchAt (s : List Char) : Option (List Char × List Char × List Char) :=
  match s with
  | c1 :: c2 :: c3 :: r =>
    if c1 = 'r' ∧ c2 = 'g' ∧ c3 = 'b' then (afterRGB r).bind matchTriple else none
  | _ => none

/-- Leftmost match of the (unanchored) regex
`rgba?\((\d+),\s*(\d+),\s*(\d+)` used by `color.match(...)` in
`normalizeColor`, scanning start positions left to right as JS does. -/
def findRGB : List Char → Option (List Char × List Char × List Char)
  | [] => none
  | c :: rest =>
    match matchAt (c :: rest) with
    | some g => some g
    | none => findRGB rest

/-- Model of JS `parseInt` (radix 10) on a nonempty all-digit capture group.
(JS goes through a float and loses precision beyond 2^53; no input considered
comes near that.) -/
def digitsToNat (l : List Char) : Nat :=
  l.foldl (fun acc c => acc * 10 + (c.toNat - 48)) 0

/-- One hex digit of JS `Number.prototype.toString(16)`: `0`-`9` then
lowercase `a`-`f`. -/
def hexDigitChar (n : Nat) : Char :=
  if n < 10 then Char.ofNat (48 + n) else Char.ofNat (87 + n)

/-- Fuel-based core of `toHex`; `fuel` only has to exceed the number of hex
digits, which `toHex` arranges, so the `fuel = 0` branch is unreachable. -/
def toHexCore : Nat → Nat → List Char
  | 0, _ => []
  | fuel + 1, n =>
    if n < 16 then [hexDigitChar n]
    else toHexCore fuel (n / 16) ++ [hexDigitChar (n % 16)]

/-- Model of JS `Number.prototype.toString(16)` on a non-negative integer. -/
def toHex (n : Nat) : List Char :=
  toHexCore (n + 1) n

/-- Model of JS `String.prototype.padStart(2, '0')`. -/
def pad2 (l : List Char) : List Char :=
  if l.length < 2 then List.replicate (2 - l.length) '0' ++ l else l

/-- The hex string built from three captured decimal components:
`` `#${r}${g}${b}` `` with `r`,`g`,`b` the 2-padded lowercase hex renderings
(extractors.js lines 619-622). -/
def rgbHexString (d1 d2 d3 : List Char) : String :=
  ⟨'#' :: (pad2 (toHex (digitsToNat d1)) ++ pad2 (toHex (digitsToNat d2)) ++
    pad2 (toHex (digitsToNat d3)))⟩

/-- The helper `normalizeColor` of `extractColors` (extractors.js lines
616-625): if the string contains an `rgb(`/`rgba(` triple, build
`#` + three 2-padded lowercase hex bytes from the three captured decimal
components; otherwise lowercase the string.  Lines 304-311 of the hover/focus
merge inline exactly the same computation. -/
def normalizeColor (s : String) : String :=
  match findRGB s.data with
  | some (d1, d2, d3) => rgbHexString d1 d2 d3
  | none => toLowerStr s

/-- Hex-digit test of the case-insensitive regex class `[a-f\d]` in
`deltaE.hexToRgb` (extractors.js lines 784-792). -/
def isHexDigit (c : Char) : Bool :=
  isDigitChar c || ('a' ≤ c && c ≤ 'f') || ('A' ≤ c && c ≤ 'F')

/-- Value of one hex digit (either case), as `parseInt(_, 16)` reads it. -/
def hexVal (c : Char) : Nat :=
  if isDigitChar c then c.toNat - 48
  else if 'a' ≤ c && c ≤ 'f' then c.toNat - 87
  else c.toNat - 55

/-- The helper `hexToRgb` inside `deltaE` (extractors.js lines 784-792):
requires a leading `#` and then, by the anchored case-insensitive regex
`^#?([a-f\d]{2})([a-f\d]{2})([a-f\d]{2})$`, exactly six hex digits. -/
def hexToRgb (s : String) : Option (Nat × Nat × Nat) :=
  match s.data with
  | '#' :: a :: b :: c :: d :: e :: f :: [] =>
    if isHexDigit a && isHexDigit b && isHexDigit c && isHexDigit d &&
        isHexDigit e && isHexDigit f then
      some (hexVal a * 16 + hexVal b, hexVal c * 16 + hexVal d, hexVal e * 16 + hexVal f)
    else none
  | _ => none

/-- Squared-distance form of `deltaE` (extractors.js lines 782-805).  The
source returns `Math.sqrt` of the sum of squared channel differences, or 999
when either argument fails to parse; every use compares `deltaE < 15`.  For
integer channel differences `sqrt(s) < 15` holds exactly when `s < 225`
(IEEE sqrt is correctly rounded and `s ≤ 3 * 255 ^ 2`), and `999 < 15` is
false just as `999 ^ 2 < 225` is, so comparing `deltaE2 < 225` is a faithful
rendering of `deltaE < 15`. -/
def deltaE2 (c1 c2 : String) : Nat :=
  match hexToRgb c1 with
  | none => 999 ^ 2
  | some (r1, g1, b1) =>
    match hexToRgb c2 with
    | none => 999 ^ 2
    | some (r2, g2, b2) =>
      ((r1 : Int) - r2).natAbs ^ 2 + ((g1 : Int) - g2).natAbs ^ 2 + ((b1 : Int) - b2).natAbs ^ 2

/-- One entry of the color palette (`extractColors`, lines 819-826, and the
tokens pushed by the hover/focus merge, lines 313-319, and the dark-mode
merge, line 365): raw representative string, normalized value, occurrence
count, confidence tier, source labels, and the optional `source` tag that the
variant-pass merges spread in. -/
structure ColorToken where
  color : String
  normalized : String
  count : Nat
  confidence : String
  sources : List String
  source : Option String := none
deriving DecidableEq, Repr

/-- Per-normalized-color accumulator of `extractColors` (lines 729-734):
first-seen raw string, occurrence count, summed context score, source labels.
Scores are sums of the integer weights 1-3, so `Nat` is exact. -/
structure ColorData where
  original : String
  count : Nat
  score : Nat
  sources : List String
deriving DecidableEq, Repr

/-- Frequency threshold of `extractColors` (line 760):
`Math.max(3, Math.floor(totalElements * 0.01))`.  For a Nat `n`,
`Math.floor(n * 0.01)` equals `n / 100`: the double product `n * 0.01` always
rounds to within `n * 2.1e-19 + half-ulp` of the exact value `n / 100`, and
whenever the exact value is an integer (the only place a floor could flip)
the product rounds to exactly that integer for all `n` below 2^45. -/
def threshold (totalElements : Nat) : Nat :=
  max 3 (totalElements / 100)

/-- The helper `isStructuralColor` of `extractColors` (lines 764-779).  The
source computes `usagePercent = (count / totalElements) * 100` and tests
`usagePercent > 40 && score < count * 1.2`; on integers these float tests are
exactly `5 * count > 2 * total` and `5 * score < 6 * count` (the doubles
agree with the exact rationals at every integer comparison point: when
`1.2 * count` or `(count / total) * 100` is an integer the computed double
rounds to exactly that integer, and otherwise the rounding error is orders of
magnitude below the distance to the nearest integer).  The source also binds
`normalizeColor(data.original)` to an unused local. -/
def isStructuralColor (data : ColorData) (totalElements : Nat) : Bool :=
  if data.original = "rgba(0, 0, 0, 0)" ∨ data.original = "transparent" then true
  else if 5 * data.count > 2 * totalElements ∧ 5 * data.score < 6 * data.count then true
  else false

/-- The palette filter predicate of `extractColors` (lines 808-818): keep a
candidate only if its count reaches the threshold and it is not structural. -/
def paletteKeep (data : ColorData) (totalElements : Nat) : Bool :=
  if data.count < threshold totalElements then false
  else if isStructuralColor data totalElements then false
  else true

/-- The representative selection `similar.sort((a, b) => b.count - a.count)[0]`
of the perceptual dedup (line 850): JS sort is stable, so the result is the
first element of `t :: l` whose count is maximal; the fold keeps the earlier
element on ties, which is exactly that. -/
def bestByCount (t : ColorToken) (l : List ColorToken) : ColorToken :=
  l.foldl (fun b u => if u.count > b.count then u else b) t

/-- The perceptual deduplication scan of `extractColors` (lines 829-852).
The source walks the palette with a `merged` index set: each not-yet-merged
candidate absorbs every later not-yet-merged candidate within `deltaE < 15`
of it and pushes the highest-count member of the group.  Splitting the tail
into the absorbed part (`deltaE2 < 225`) and the remainder and recursing on
the remainder visits exactly the not-yet-merged indices in order, so this
recursion computes the same list. -/
def dedupScanCore : Nat → List ColorToken → List ColorToken
  | 0, _ => []
  | _ + 1, [] => []
  | fuel + 1, t :: rest =>
    bestByCount t (rest.filter (fun u => decide (deltaE2 t.normalized u.normalized < 225))) ::
      dedupScanCore fuel (rest.filter (fun u => !decide (deltaE2 t.normalized u.normalized < 225)))

/-- The perceptual deduplication applied to the sorted, filtered palette.
The structural fuel of `dedupScanCore` only has to reach the list length
(each recursive call strictly shrinks the list), so starting it at the
length makes the `fuel = 0` fallback unreachable. -/
def dedupScan (palette : List ColorToken) : List ColorToken :=
  dedupScanCore palette.length palette

/-- The token pushed for a non-duplicate hover/focus color (extractors.js
lines 313-319); `normalized` is computed by the inline copy of
`normalizeColor` at lines 304-311. -/
def hoverToken (color : String) : ColorToken :=
  { color := color, normalized := normalizeColor color, count := 1,
    confidence := "medium", sources := ["hover/focus"] }

/-- The hover/focus merge loop (extractors.js lines 300-321): for each
collected hover/focus color string, test `colors.palette.some(c => c.color
=== color)` — raw-string equality against the palette built so far — and push
a new `medium`-confidence token when there is no such raw duplicate and the
string is truthy (non-empty). -/
def hoverMergeGo : List ColorToken → List String → List ColorToken
  | palette, [] => palette
  | palette, color :: rest =>
    if !palette.any (fun c => c.color = color) && color ≠ "" then
      hoverMergeGo (palette ++ [hoverToken color]) rest
    else
      hoverMergeGo palette rest

/-- Entry point of the hover/focus merge over the collected color list. -/
def mergeHoverColors (palette : List ColorToken) (hoverFocusColors : List String) :
    List ColorToken :=
  hoverMergeGo palette hoverFocusColors

/-- The element-index cutoff of the page-side hover/focus loop (extractors.js
lines 246-247): `interactiveElements.forEach((el, index) => { if (index > 50)
return; ... })`.  The per-element stylesheet scan and selector matching are a
foreign-runtime capability; each interactive element is represented here by
the list of color strings its matching `:hover`/`:focus` rules would
contribute, and the function returns the colors the loop actually collects. -/
def hoverFocusScan (elementContributions : List (List String)) : List String :=
  ((elementContributions.enum.filter (fun p => !decide (p.1 > 50))).map (fun p => p.2)).flatten

/-- The spread `{ ...darkColor, source: 'dark-mode' }` of the dark-mode merge
(extractors.js line 365). -/
def tagDark (t : ColorToken) : ColorToken :=
  { t with source := some "dark-mode" }

/-- The dark-mode palette merge loop (extractors.js lines 356-367): starting
from a copy of the baseline palette, each dark-mode color is appended (tagged
`dark-mode`) unless some token already in the accumulated list has the same
exact `normalized` value. -/
def darkMergeGo : List ColorToken → List ColorToken → List ColorToken
  | merged, [] => merged
  | merged, d :: rest =>
    if merged.any (fun e => e.normalized = d.normalized) then
      darkMergeGo merged rest
    else
      darkMergeGo (merged ++ [tagDark d]) rest

/-- The dark-mode palette merge (extractors.js lines 355-369). -/
def mergeDarkPalette (baseline darkPalette : List ColorToken) : List ColorToken :=
  darkMergeGo baseline darkPalette

/-- Outcome of one iteration of the navigation loop of `extractBranding`
(lines 82-175), as seen from the loop logic: either the navigation/wait
sequence raises (caught at line 162), or it completes and the content-length
validation reads the page text length. -/
inductive AttemptOutcome where
  | navError (msg : String)
  | content (len : Nat)
deriving DecidableEq, Repr

/-- How the navigation loop of `extractBranding` (lines 79-175) ends:
`success a` models the `break` at line 151 after a passed validation on
attempt `a`; `failure a msg` models the `throw err` at line 167 on attempt
`a`; `exited a` models the `while` condition turning false after attempt `a`
without a passed validation. -/
inductive NavResult where
  | success (attempts : Nat)
  | failure (attempts : Nat) (msg : String)
  | exited (attempts : Nat)
deriving DecidableEq, Repr

/-- One trip round the `while (attempts < maxAttempts)` loop of
`extractBranding` (lines 82-175) with `maxAttempts = 2`: increment the
attempt counter, run the attempt; a content length above 500 breaks with
success, a thin page warns and loops, a raised navigation error is rethrown
once `attempts >= maxAttempts` and otherwise loops.  `outcome n` is what
attempt number `n` does. -/
def navGo (outcome : Nat → AttemptOutcome) : Nat → Nat → NavResult
  | fuel, attempts =>
    if attempts < 2 then
      match fuel with
      | 0 => .exited attempts
      | fuel + 1 =>
        let a := attempts + 1
        match outcome a with
        | .content len => if len > 500 then .success a else navGo outcome fuel a
        | .navError msg => if a ≥ 2 then .failure a msg else navGo outcome fuel a
    else .exited attempts

/-- The whole navigation loop, started with `attempts = 0`.  The structural
fuel argument of `navGo` counts loop iterations still permitted; starting it
at the attempt budget 2 makes its `fuel = 0` fallback unreachable, so the
recursion is exactly the source's `while (attempts < 2)` loop. -/
def navLoop (outcome : Nat → AttemptOutcome) : NavResult :=
  navGo outcome 2 0

/-- Whether control reaches the extraction phase (line 177 onwards) after the
navigation loop: a thrown navigation error propagates out of the function
(lines 167 and 450-457); any other loop exit falls through to extraction. -/
def proceedsToExtraction (r : NavResult) : Bool :=
  match r with
  | .failure _ _ => false
  | _ => true

/-! Theorems. -/

/-- The 999 fallback of `deltaE` when the first argument does not parse. -/
theorem deltaE2_none_left (c1 c2 : String) (h : hexToRgb c1 = none) :
    deltaE2 c1 c2 = 999 ^ 2 := by
  unfold deltaE2
  rw [h]

/-- The 999 fallback of `deltaE` when the second argument does not parse. -/
theorem deltaE2_none_right (c1 c2 : String) (h : hexToRgb c2 = none) :
    deltaE2 c1 c2 = 999 ^ 2 := by
  unfold deltaE2
  cases h1 : hexToRgb c1 with
  | none => rfl
  | some v =>
    obtain ⟨r1, g1, b1⟩ := v
    rw [h]

/-- C6: with a total visible element count of 1000 the frequency threshold is
`max(3, floor(0.01 * 1000)) = 10`; a color with accumulated count 9 is
excluded from the palette, and one with count 10 passes the filter provided
it is not classified structural. -/
theorem c6_threshold_1000 (d9 d10 : ColorData) (h9 : d9.count = 9)
    (h10 : d10.count = 10) (hs : isStructuralColor d10 1000 = false) :
    threshold 1000 = 10 ∧ paletteKeep d9 1000 = false ∧ paletteKeep d10 1000 = true := by
  refine ⟨rfl, ?_, ?_⟩
  · simp [paletteKeep, threshold, h9]
  · simp [paletteKeep, threshold, h10, hs]

/-- Witness for C6 at count 9 and count 10 with a non-structural color. -/
theorem c6_threshold_1000_witness :
    threshold 1000 = 10 ∧ paletteKeep ⟨"rgb(1, 2, 3)", 9, 9, []⟩ 1000 = false ∧
      paletteKeep ⟨"rgb(1, 2, 3)", 10, 10, []⟩ 1000 = true :=
  c6_threshold_1000 ⟨"rgb(1, 2, 3)", 9, 9, []⟩ ⟨"rgb(1, 2, 3)", 10, 10, []⟩ rfl rfl (by decide)

/-- C7: a color at exactly 41 percent usage (`count * 100 = 41 * total`)
whose score equals its count is classified structural and dropped by the
palette filter; with the same usage and `score >= count * 1.2` (exactly:
`5 * score >= 6 * count`) it is not structural and passes the filter.  The
`original` strings are not the transparent literals, which the accumulator of
`extractColors` (line 727) never stores. -/
theorem c7_structural_41_percent (d1 d2 : ColorData) (total : Nat) (h0 : 0 < total)
    (hu1 : d1.count * 100 = 41 * total) (hs1 : d1.score = d1.count)
    (hu2 : d2.count * 100 = 41 * total)
    (ho2 : d2.original ≠ "rgba(0, 0, 0, 0)") (ho2t : d2.original ≠ "transparent")
    (hs2 : 6 * d2.count ≤ 5 * d2.score) :
    (isStructuralColor d1 total = true ∧ paletteKeep d1 total = false) ∧
    (isStructuralColor d2 total = false ∧ paletteKeep d2 total = true) := by
  have hc1 : 5 * d1.count > 2 * total ∧ 5 * d1.score < 6 * d1.count := by omega
  have hstruct1 : isStructuralColor d1 total = true := by
    by_cases htr : d1.original = "rgba(0, 0, 0, 0)" ∨ d1.original = "transparent"
    · simp [isStructuralColor, htr]
    · simp [isStructuralColor, htr, hc1.1, hc1.2]
  have hkeep1 : paletteKeep d1 total = false := by
    simp [paletteKeep, hstruct1]
  have hP1 : ¬(d2.original = "rgba(0, 0, 0, 0)" ∨ d2.original = "transparent") := by
    rintro (h | h)
    · exact ho2 h
    · exact ho2t h
  have hP2 : ¬(5 * d2.count > 2 * total ∧ 5 * d2.score < 6 * d2.count) := by omega
  have hstruct2 : isStructuralColor d2 total = false := by
    simp [isStructuralColor, hP1, hP2]
  have hthresh : threshold total ≤ d2.count := by
    have h3 : 3 ≤ d2.count := by omega
    have hdiv : total / 100 ≤ d2.count := by omega
    exact Nat.max_le.mpr ⟨h3, hdiv⟩
  have hkeep2 : paletteKeep d2 total = true := by
    unfold paletteKeep
    rw [if_neg (Nat.not_lt.mpr hthresh)]
    simp [hstruct2]
  exact ⟨⟨hstruct1, hkeep1⟩, ⟨hstruct2, hkeep2⟩⟩

/-- Witness for C7 with 410 of 1000 elements: score 410 is structural and
dropped, score 492 (which is `410 * 1.2`) is kept. -/
theorem c7_structural_41_percent_witness :
    (isStructuralColor ⟨"rgb(0, 0, 0)", 410, 410, []⟩ 1000 = true ∧
      paletteKeep ⟨"rgb(0, 0, 0)", 410, 410, []⟩ 1000 = false) ∧
    (isStructuralColor ⟨"rgb(1, 2, 3)", 410, 492, []⟩ 1000 = false ∧
      paletteKeep ⟨"rgb(1, 2, 3)", 410, 492, []⟩ 1000 = true) :=
  c7_structural_41_percent ⟨"rgb(0, 0, 0)", 410, 410, []⟩ ⟨"rgb(1, 2, 3)", 410, 492, []⟩
    1000 (by decide) rfl rfl rfl (by decide) (by decide) (by decide)

/-- C8: when navigation raises an error on both of the at-most-2 attempts,
the loop rethrows the last error after attempt 2 and makes no further
attempt. -/
theorem c8_navigation_failure_two_attempts (o : Nat → AttemptOutcome) (m1 m2 : String)
    (h1 : o 1 = .navError m1) (h2 : o 2 = .navError m2) :
    navLoop o = .failure 2 m2 := by
  simp [navLoop, navGo, h1, h2]

/-- Witness for C8 with a network error on every attempt. -/
theorem c8_navigation_failure_two_attempts_witness :
    navLoop (fun _ => .navError "net::ERR_CONNECTION_REFUSED") =
      .failure 2 "net::ERR_CONNECTION_REFUSED" :=
  c8_navigation_failure_two_attempts (fun _ => .navError "net::ERR_CONNECTION_REFUSED")
    "net::ERR_CONNECTION_REFUSED" "net::ERR_CONNECTION_REFUSED" rfl rfl

/-- C3 counterexample: when the content-length validation fails (length not
above 500) on both attempts without a navigation exception, the loop does not
end in a failure — it falls out of the `while` and the pipeline proceeds to
extraction on the never-validated snapshot, contrary to the claim that the
pipeline ends Failed and extraction does not proceed. -/
theorem c3_validation_counterexample :
    navLoop (fun _ => .content 0) = .exited 2 ∧
      proceedsToExtraction (navLoop (fun _ => .content 0)) = true := by
  decide

/-- C3 as amended: if validation fails on every attempt (and navigation never
throws), the loop exits after the 2-attempt budget without raising any error,
and control proceeds to the extraction phase; only a navigation exception on
the final attempt is propagated as fatal. -/
theorem c3_validation_exhaustion_proceeds (o : Nat → AttemptOutcome) (l1 l2 : Nat)
    (h1 : o 1 = .content l1) (h2 : o 2 = .content l2)
    (hl1 : l1 ≤ 500) (hl2 : l2 ≤ 500) :
    navLoop o = .exited 2 ∧ proceedsToExtraction (navLoop o) = true := by
  have hr : navLoop o = .exited 2 := by
    simp [navLoop, navGo, h1, h2, Nat.not_lt.mpr hl1, Nat.not_lt.mpr hl2]
  exact ⟨hr, by rw [hr]; rfl⟩

/-- Witness for the amended C3 with an empty page on both attempts. -/
theorem c3_validation_exhaustion_proceeds_witness :
    navLoop (fun _ => .content 120) = .exited 2 ∧
      proceedsToExtraction (navLoop (fun _ => .content 120)) = true :=
  c3_validation_exhaustion_proceeds (fun _ => .content 120) 120 120 rfl rfl
    (by decide) (by decide)

/-- C5: the page-side hover/focus loop skips an element exactly when its
index exceeds 50, so the elements at indices 0 through 50 — the first 51
interactive elements, not 50 — contribute colors.  Evaluated at 52 elements
where only the 51st (index 50) and 52nd (index 51) have matching rules: the
51st contributes and the 52nd does not, contradicting the claim (and the
source's own comment) that at most the first 50 elements are tested. -/
theorem c5_hover_cutoff_eval :
    hoverFocusScan (List.replicate 50 [] ++ [["#123456"], ["#ff0000"]]) = ["#123456"] := by
  decide

/-- When no element of `l` beats `t` on count, the stable selection keeps
`t` itself (the source's stable descending sort returns the scanned
candidate as the head of its group). -/
theorem bestByCount_eq_self : ∀ (l : List ColorToken) (t : ColorToken),
    (∀ u ∈ l, u.count ≤ t.count) → bestByCount t l = t := by
  intro l
  induction l with
  | nil => intro t _; rfl
  | cons u l ih =>
    intro t h
    have hu : ¬(u.count > t.count) := Nat.not_lt.mpr (h u (List.mem_cons_self u l))
    have hstep : bestByCount t (u :: l) = bestByCount t l := by
      simp only [bestByCount, List.foldl_cons, if_neg hu]
    rw [hstep]
    exact ih t (fun v hv => h v (List.mem_cons_of_mem u hv))

/-- Core invariant of the perceptual dedup on a count-descending candidate
list: the output is drawn from the input, and retained tokens are pairwise at
squared distance at least 225 (distance at least 15). -/
theorem dedupScanCore_sorted_spec : ∀ (fuel : Nat) (l : List ColorToken),
    l.length ≤ fuel →
    List.Pairwise (fun a b : ColorToken => b.count ≤ a.count) l →
    (∀ t ∈ dedupScanCore fuel l, t ∈ l) ∧
    List.Pairwise (fun a b : ColorToken => 225 ≤ deltaE2 a.normalized b.normalized)
      (dedupScanCore fuel l) := by
  intro fuel
  induction fuel with
  | zero =>
    intro l _ _
    exact ⟨fun t ht => absurd ht (List.not_mem_nil t), List.Pairwise.nil⟩
  | succ fuel ih =>
    intro l hlen hsort
    match l with
    | [] => exact ⟨fun t ht => absurd ht (List.not_mem_nil t), List.Pairwise.nil⟩
    | t :: rest =>
      have hhead : ∀ u ∈ rest, u.count ≤ t.count := (List.pairwise_cons.mp hsort).1
      have htail : List.Pairwise (fun a b : ColorToken => b.count ≤ a.count) rest :=
        (List.pairwise_cons.mp hsort).2
      have hbest : bestByCount t
          (rest.filter (fun u => decide (deltaE2 t.normalized u.normalized < 225))) = t := by
        refine bestByCount_eq_self _ t (fun u hu => hhead u ?_)
        exact List.mem_of_mem_filter hu
      have hrec : dedupScanCore (fuel + 1) (t :: rest) =
          t :: dedupScanCore fuel
            (rest.filter (fun u => !decide (deltaE2 t.normalized u.normalized < 225))) := by
        simp only [dedupScanCore, hbest]
      set keep := rest.filter (fun u => !decide (deltaE2 t.normalized u.normalized < 225)) with hkeep
      have hklen : keep.length ≤ fuel := by
        have h1 : keep.length ≤ rest.length := List.length_filter_le _ _
        have h2 : rest.length ≤ fuel := by
          simpa [Nat.succ_le_succ_iff] using hlen
        omega
      have hksort : List.Pairwise (fun a b : ColorToken => b.count ≤ a.count) keep :=
        htail.sublist (List.filter_sublist rest)
      obtain ⟨hmem, hpw⟩ := ih keep hklen hksort
      constructor
      · intro x hx
        rw [hrec] at hx
        rcases List.mem_cons.mp hx with rfl | hx2
        · exact List.mem_cons_self _ _
        · exact List.mem_cons_of_mem _ (List.mem_of_mem_filter (hmem x hx2))
      · rw [hrec]
        refine List.pairwise_cons.mpr ⟨?_, hpw⟩
        intro x hx
        have hxk : x ∈ keep := hmem x hx
        have hcond := (List.mem_filter.mp hxk).2
        simp only [Bool.not_eq_true', decide_eq_false_iff_not] at hcond
        omega

/-- C4 counterexample: three surviving candidates, counts descending, where
`#000008` and `#000004` are within distance 15 of each other but both are
absorbed by the earlier, higher-count `#000000` — so of that close pair not
exactly one but zero tokens remain in the deduped output, contradicting the
claim that such a pair always collapses into one of its own members. -/
theorem c4_dedup_counterexample :
    deltaE2 "#000008" "#000004" < 225 ∧
    dedupScan [⟨"rgb(0, 0, 0)", "#000000", 5, "high", [], none⟩,
        ⟨"rgb(0, 0, 8)", "#000008", 4, "high", [], none⟩,
        ⟨"rgb(0, 0, 4)", "#000004", 3, "high", [], none⟩] =
      [⟨"rgb(0, 0, 0)", "#000000", 5, "high", [], none⟩] ∧
    (⟨"rgb(0, 0, 8)", "#000008", 4, "high", [], none⟩ : ColorToken) ∉
      dedupScan [⟨"rgb(0, 0, 0)", "#000000", 5, "high", [], none⟩,
        ⟨"rgb(0, 0, 8)", "#000008", 4, "high", [], none⟩,
        ⟨"rgb(0, 0, 4)", "#000004", 3, "high", [], none⟩] ∧
    (⟨"rgb(0, 0, 4)", "#000004", 3, "high", [], none⟩ : ColorToken) ∉
      dedupScan [⟨"rgb(0, 0, 0)", "#000000", 5, "high", [], none⟩,
        ⟨"rgb(0, 0, 8)", "#000008", 4, "high", [], none⟩,
        ⟨"rgb(0, 0, 4)", "#000004", 3, "high", [], none⟩] := by
  decide

/-- C4 as amended: on the count-descending candidate list the deduped output
consists of input tokens that are pairwise at RGB distance at least 15, so of
any two candidates closer than 15 at most one is retained (possibly neither,
when both are absorbed by an earlier higher-count token); and a close pair
alone does collapse to its higher-count member. -/
theorem c4_dedup_pairwise_separation (p : List ColorToken)
    (hs : List.Pairwise (fun a b : ColorToken => b.count ≤ a.count) p) :
    ((∀ t ∈ dedupScan p, t ∈ p) ∧
      List.Pairwise (fun a b : ColorToken => 225 ≤ deltaE2 a.normalized b.normalized)
        (dedupScan p)) ∧
    ∀ a b : ColorToken, b.count ≤ a.count →
      deltaE2 a.normalized b.normalized < 225 → dedupScan [a, b] = [a] := by
  refine ⟨dedupScanCore_sorted_spec p.length p (Nat.le_refl _) hs, ?_⟩
  intro a b hcount hclose
  simp [dedupScan, dedupScanCore, hclose, bestByCount, Nat.not_lt.mpr hcount]

/-- Witness for the amended C4 on a concrete descending palette. -/
theorem c4_dedup_pairwise_separation_witness :
    ((∀ t ∈ dedupScan [⟨"rgb(0, 0, 0)", "#000000", 5, "high", [], none⟩,
        ⟨"rgb(9, 9, 9)", "#090909", 4, "high", [], none⟩,
        ⟨"rgb(200, 0, 0)", "#c80000", 3, "high", [], none⟩],
        t ∈ [⟨"rgb(0, 0, 0)", "#000000", 5, "high", [], none⟩,
        ⟨"rgb(9, 9, 9)", "#090909", 4, "high", [], none⟩,
        ⟨"rgb(200, 0, 0)", "#c80000", 3, "high", [], none⟩]) ∧
      List.Pairwise (fun a b : ColorToken => 225 ≤ deltaE2 a.normalized b.normalized)
        (dedupScan [⟨"rgb(0, 0, 0)", "#000000", 5, "high", [], none⟩,
        ⟨"rgb(9, 9, 9)", "#090909", 4, "high", [], none⟩,
        ⟨"rgb(200, 0, 0)", "#c80000", 3, "high", [], none⟩])) ∧
    ∀ a b : ColorToken, b.count ≤ a.count →
      deltaE2 a.normalized b.normalized < 225 → dedupScan [a, b] = [a] :=
  c4_dedup_pairwise_separation _ (by decide)

/-- Unparseable normalized values put `deltaE2` at its 999-squared fallback
against every partner, so such a candidate is never merged and always appears
unchanged in the dedup output. -/
theorem unparseable_mem_dedupScanCore : ∀ (fuel : Nat) (l : List ColorToken) (t : ColorToken),
    l.length ≤ fuel → t ∈ l → hexToRgb t.normalized = none → t ∈ dedupScanCore fuel l := by
  intro fuel
  induction fuel with
  | zero =>
    intro l t hlen ht _
    have : l = [] := List.length_eq_zero.mp (Nat.le_zero.mp hlen)
    subst this
    cases ht
  | succ fuel ih =>
    intro l t hlen ht hun
    match l with
    | [] => cases ht
    | u :: rest =>
      rcases List.mem_cons.mp ht with rfl | hmem
      · have hsim : rest.filter
            (fun v => decide (deltaE2 t.normalized v.normalized < 225)) = [] := by
          refine List.filter_eq_nil_iff.mpr ?_
          intro v _
          simp only [deltaE2_none_left _ _ hun, decide_eq_true_eq]
          decide
        have : dedupScanCore (fuel + 1) (t :: rest) =
            t :: dedupScanCore fuel
              (rest.filter (fun v => !decide (deltaE2 t.normalized v.normalized < 225))) := by
          simp only [dedupScanCore, hsim, bestByCount, List.foldl_nil]
        rw [this]
        exact List.mem_cons_self _ _
      · have hfar : deltaE2 u.normalized t.normalized = 999 ^ 2 :=
          deltaE2_none_right _ _ hun
        have hkeep : t ∈ rest.filter
            (fun v => !decide (deltaE2 u.normalized v.normalized < 225)) := by
          refine List.mem_filter.mpr ⟨hmem, ?_⟩
          simp [hfar]
        have hklen : (rest.filter
            (fun v => !decide (deltaE2 u.normalized v.normalized < 225))).length ≤ fuel := by
          have h1 := List.length_filter_le
            (fun v => !decide (deltaE2 u.normalized v.normalized < 225)) rest
          have h2 : rest.length + 1 ≤ fuel + 1 := by simpa using hlen
          omega
        simp only [dedupScanCore]
        exact List.mem_cons_of_mem _ (ih _ t hklen hkeep hun)

/-- C10: when either normalized value fails to parse as `#rrggbb`, the
distance helper yields its 999 fallback (squared here), and a palette
candidate whose normalized value is unparseable is never absorbed during
perceptual dedup — it always survives as its own token. -/
theorem c10_unparseable_survives (c1 c2 : String) (p : List ColorToken) (t : ColorToken)
    (hc : hexToRgb c1 = none ∨ hexToRgb c2 = none)
    (ht : t ∈ p) (hun : hexToRgb t.normalized = none) :
    deltaE2 c1 c2 = 999 ^ 2 ∧ t ∈ dedupScan p := by
  constructor
  · rcases hc with h | h
    · exact deltaE2_none_left _ _ h
    · exact deltaE2_none_right _ _ h
  · exact unparseable_mem_dedupScanCore p.length p t (Nat.le_refl _) ht hun

/-- Witness for C10: the named color `white` does not parse, is at fallback
distance from `#ffffff`, and survives dedup next to it. -/
theorem c10_unparseable_survives_witness :
    deltaE2 "white" "#ffffff" = 999 ^ 2 ∧
      (⟨"white", "white", 3, "low", [], none⟩ : ColorToken) ∈
        dedupScan [⟨"rgb(255, 255, 255)", "#ffffff", 5, "high", [], none⟩,
          ⟨"white", "white", 3, "low", [], none⟩] :=
  c10_unparseable_survives "white" "#ffffff"
    [⟨"rgb(255, 255, 255)", "#ffffff", 5, "high", [], none⟩,
      ⟨"white", "white", 3, "low", [], none⟩]
    ⟨"white", "white", 3, "low", [], none⟩ (Or.inl (by decide)) (by decide) (by decide)

/-- Characterization of the dark-mode merge loop: it appends to the
accumulated palette exactly those dark tokens (tagged `dark-mode`) whose
normalized value is not already present, every dark normalized value ends up
represented, and the appended tokens have pairwise distinct normalized
values.  Perceptual distance plays no role. -/
theorem darkMergeGo_spec : ∀ (dark merged : List ColorToken),
    ∃ added : List ColorToken,
      darkMergeGo merged dark = merged ++ added ∧
      (∀ a ∈ added, (∃ d ∈ dark, a = tagDark d) ∧
        ∀ b ∈ merged, b.normalized ≠ a.normalized) ∧
      List.Pairwise (fun a b : ColorToken => a.normalized ≠ b.normalized) added ∧
      ∀ d ∈ dark, ∃ u ∈ darkMergeGo merged dark, u.normalized = d.normalized := by
  intro dark
  induction dark with
  | nil =>
    intro merged
    refine ⟨[], by simp [darkMergeGo], ?_, List.Pairwise.nil, ?_⟩
    · intro a ha
      exact absurd ha (List.not_mem_nil a)
    · intro d hd
      exact absurd hd (List.not_mem_nil d)
  | cons d rest ih =>
    intro merged
    by_cases h : merged.any (fun e => e.normalized = d.normalized) = true
    · obtain ⟨added, heq, hadd, hpw, hcov⟩ := ih merged
      have hgo : darkMergeGo merged (d :: rest) = darkMergeGo merged rest := by
        simp only [darkMergeGo, if_pos h]
      refine ⟨added, by rw [hgo]; exact heq, ?_, hpw, ?_⟩
      · intro a ha
        obtain ⟨⟨d0, hd0, he⟩, hb⟩ := hadd a ha
        exact ⟨⟨d0, List.mem_cons_of_mem d hd0, he⟩, hb⟩
      · intro d0 hd0
        rcases List.mem_cons.mp hd0 with rfl | hmem
        · simp only [List.any_eq_true, decide_eq_true_eq] at h
          obtain ⟨b, hbm, hbn⟩ := h
          exact ⟨b, by rw [hgo, heq]; exact List.mem_append_left _ hbm, hbn⟩
        · obtain ⟨u, hu, hn⟩ := hcov d0 hmem
          exact ⟨u, by rw [hgo]; exact hu, hn⟩
    · have hnot : ∀ b ∈ merged, b.normalized ≠ d.normalized := by
        intro b hb heq2
        exact h (List.any_eq_true.mpr ⟨b, hb, decide_eq_true heq2⟩)
      obtain ⟨added, heq, hadd, hpw, hcov⟩ := ih (merged ++ [tagDark d])
      have hgo : darkMergeGo merged (d :: rest) = darkMergeGo (merged ++ [tagDark d]) rest := by
        simp only [darkMergeGo, if_neg h]
      refine ⟨tagDark d :: added, ?_, ?_, ?_, ?_⟩
      · rw [hgo, heq]
        simp
      · intro a ha
        rcases List.mem_cons.mp ha with rfl | ha2
        · refine ⟨⟨d, List.mem_cons_self d rest, rfl⟩, ?_⟩
          intro b hb
          exact hnot b hb
        · obtain ⟨⟨d0, hd0, he⟩, hb⟩ := hadd a ha2
          refine ⟨⟨d0, List.mem_cons_of_mem d hd0, he⟩, ?_⟩
          intro b hbm
          exact hb b (List.mem_append_left _ hbm)
      · refine List.pairwise_cons.mpr ⟨?_, hpw⟩
        intro a ha
        exact (hadd a ha).2 (tagDark d) (List.mem_append_right _ (List.mem_singleton_self _))
      · intro d0 hd0
        rcases List.mem_cons.mp hd0 with rfl | hmem
        · refine ⟨tagDark d0, ?_, rfl⟩
          rw [hgo, heq]
          exact List.mem_append_left _ (List.mem_append_right _ (List.mem_singleton_self _))
        · obtain ⟨u, hu, hn⟩ := hcov d0 hmem
          exact ⟨u, by rw [hgo]; exact hu, hn⟩

/-- C1 counterexample: the dark-mode color `#000001` is at RGB distance 1
(squared distance 1 < 225) from the baseline token `#000000`, so under the
claimed perceptual dedup with threshold 15 it would not be added — but the
merge only compares exact normalized values and does add it. -/
theorem c1_dark_merge_counterexample :
    deltaE2 "#000000" "#000001" < 225 ∧
    mergeDarkPalette [⟨"rgb(0, 0, 0)", "#000000", 5, "high", [], none⟩]
        [⟨"rgb(0, 0, 1)", "#000001", 1, "low", [], none⟩] =
      [⟨"rgb(0, 0, 0)", "#000000", 5, "high", [], none⟩,
        ⟨"rgb(0, 0, 1)", "#000001", 1, "low", [], some "dark-mode"⟩] := by
  decide

/-- C1 as amended: the dark-mode variant pass merges by exact normalized
value, not by perceptual distance — a dark-mode color is appended (tagged
`dark-mode`) exactly when no token already in the merged palette (baseline
plus earlier dark-mode additions) has the same normalized value, and every
dark-mode normalized value is represented in the merged palette. -/
theorem c1_dark_merge_exact_dedup (baseline dark : List ColorToken) :
    ∃ added : List ColorToken,
      mergeDarkPalette baseline dark = baseline ++ added ∧
      (∀ a ∈ added, (∃ d ∈ dark, a = tagDark d) ∧
        ∀ b ∈ baseline, b.normalized ≠ a.normalized) ∧
      List.Pairwise (fun a b : ColorToken => a.normalized ≠ b.normalized) added ∧
      ∀ d ∈ dark, ∃ u ∈ mergeDarkPalette baseline dark, u.normalized = d.normalized :=
  darkMergeGo_spec dark baseline

/-- Characterization of the hover/focus merge loop: it appends exactly those
hover colors (as `medium`-confidence count-1 tokens) whose raw string is
non-empty and not already the raw `color` of a palette token, with pairwise
distinct raw strings, and every non-empty hover color string is represented
by raw-string equality in the result. -/
theorem hoverMergeGo_spec : ∀ (hovers : List String) (palette : List ColorToken),
    ∃ added : List ColorToken,
      hoverMergeGo palette hovers = palette ++ added ∧
      (∀ a ∈ added, (∃ c ∈ hovers, c ≠ "" ∧ a = hoverToken c) ∧
        ∀ p ∈ palette, p.color ≠ a.color) ∧
      List.Pairwise (fun a b : ColorToken => a.color ≠ b.color) added ∧
      ∀ c ∈ hovers, c ≠ "" → ∃ u ∈ hoverMergeGo palette hovers, u.color = c := by
  intro hovers
  induction hovers with
  | nil =>
    intro palette
    refine ⟨[], by simp [hoverMergeGo], ?_, List.Pairwise.nil, ?_⟩
    · intro a ha
      exact absurd ha (List.not_mem_nil a)
    · intro c hc
      exact absurd hc (List.not_mem_nil c)
  | cons c rest ih =>
    intro palette
    by_cases hdup : palette.any (fun t => t.color = c) = true
    · obtain ⟨added, heq, hadd, hpw, hcov⟩ := ih palette
      have hgo : hoverMergeGo palette (c :: rest) = hoverMergeGo palette rest := by
        simp [hoverMergeGo, hdup]
      refine ⟨added, by rw [hgo]; exact heq, ?_, hpw, ?_⟩
      · intro a ha
        obtain ⟨⟨c0, hc0, he⟩, hb⟩ := hadd a ha
        exact ⟨⟨c0, List.mem_cons_of_mem c hc0, he⟩, hb⟩
      · intro c0 hc0 hne
        rcases List.mem_cons.mp hc0 with rfl | hmem
        · simp only [List.any_eq_true, decide_eq_true_eq] at hdup
          obtain ⟨p, hpm, hpc⟩ := hdup
          exact ⟨p, by rw [hgo, heq]; exact List.mem_append_left _ hpm, hpc⟩
        · obtain ⟨u, hu, hn⟩ := hcov c0 hmem hne
          exact ⟨u, by rw [hgo]; exact hu, hn⟩
    · by_cases hemp : c = ""
      · obtain ⟨added, heq, hadd, hpw, hcov⟩ := ih palette
        have hgo : hoverMergeGo palette (c :: rest) = hoverMergeGo palette rest := by
          simp [hoverMergeGo, hemp]
        refine ⟨added, by rw [hgo]; exact heq, ?_, hpw, ?_⟩
        · intro a ha
          obtain ⟨⟨c0, hc0, he⟩, hb⟩ := hadd a ha
          exact ⟨⟨c0, List.mem_cons_of_mem c hc0, he⟩, hb⟩
        · intro c0 hc0 hne
          rcases List.mem_cons.mp hc0 with rfl | hmem
          · exact absurd hemp hne
          · obtain ⟨u, hu, hn⟩ := hcov c0 hmem hne
            exact ⟨u, by rw [hgo]; exact hu, hn⟩
      · have hnot : ∀ p ∈ palette, p.color ≠ c := by
          intro p hp heq2
          exact hdup (List.any_eq_true.mpr ⟨p, hp, decide_eq_true heq2⟩)
        obtain ⟨added, heq, hadd, hpw, hcov⟩ := ih (palette ++ [hoverToken c])
        have hgo : hoverMergeGo palette (c :: rest) =
            hoverMergeGo (palette ++ [hoverToken c]) rest := by
          simp [hoverMergeGo, hdup, hemp]
        refine ⟨hoverToken c :: added, ?_, ?_, ?_, ?_⟩
        · rw [hgo, heq]
          simp
        · intro a ha
          rcases List.mem_cons.mp ha with rfl | ha2
          · exact ⟨⟨c, List.mem_cons_self c rest, hemp, rfl⟩, fun p hp => hnot p hp⟩
          · obtain ⟨⟨c0, hc0, he⟩, hb⟩ := hadd a ha2
            refine ⟨⟨c0, List.mem_cons_of_mem c hc0, he⟩, ?_⟩
            intro p hpm
            exact hb p (List.mem_append_left _ hpm)
        · refine List.pairwise_cons.mpr ⟨?_, hpw⟩
          intro a ha
          exact (hadd a ha).2 (hoverToken c)
            (List.mem_append_right _ (List.mem_singleton_self _))
        · intro c0 hc0 hne
          rcases List.mem_cons.mp hc0 with rfl | hmem
          · refine ⟨hoverToken c0, ?_, rfl⟩
            rw [hgo, heq]
            exact List.mem_append_left _ (List.mem_append_right _ (List.mem_singleton_self _))
          · obtain ⟨u, hu, hn⟩ := hcov c0 hmem hne
            exact ⟨u, by rw [hgo]; exact hu, hn⟩

/-- C2 counterexample: the hover color string `#000000` has exactly the same
normalized value as the existing palette token (raw `rgb(0, 0, 0)`,
normalized `#000000`), so under the claimed exact-normalized dedup it would
be dropped — but the merge compares raw `color` strings and adds a second
token with the same normalized value. -/
theorem c2_hover_merge_counterexample :
    normalizeColor "#000000" = "#000000" ∧
    mergeHoverColors [⟨"rgb(0, 0, 0)", "#000000", 5, "high", [], none⟩] ["#000000"] =
      [⟨"rgb(0, 0, 0)", "#000000", 5, "high", [], none⟩,
        ⟨"#000000", "#000000", 1, "medium", ["hover/focus"], none⟩] := by
  decide

/-- C2 as amended: every collected hover/focus color is merged as a count-1
`medium`-confidence token, and it is dropped as a duplicate exactly when some
existing palette token has the same raw `color` string (or the string is
empty) — the comparison is on raw strings, not on normalized values, and
perceptual distance is not used. -/
theorem c2_hover_merge_raw_dedup (palette : List ColorToken) (hovers : List String) :
    ∃ added : List ColorToken,
      mergeHoverColors palette hovers = palette ++ added ∧
      (∀ a ∈ added, (∃ c ∈ hovers, c ≠ "" ∧ a = hoverToken c) ∧
        ∀ p ∈ palette, p.color ≠ a.color) ∧
      List.Pairwise (fun a b : ColorToken => a.color ≠ b.color) added ∧
      ∀ c ∈ hovers, c ≠ "" → ∃ u ∈ mergeHoverColors palette hovers, u.color = c :=
  hoverMergeGo_spec hovers palette

/-- Result of ASCII lowercasing never lands in the uppercase range. -/
theorem toLowerChar_not_upper (c : Char) :
    ¬(65 ≤ (toLowerChar c).toNat ∧ (toLowerChar c).toNat ≤ 90) := by
  unfold toLowerChar
  by_cases h : 65 ≤ c.toNat ∧ c.toNat ≤ 90
  · rw [if_pos h]
    obtain ⟨ha, hb⟩ := h
    have h97 : 97 ≤ c.toNat + 32 := by omega
    have h122 : c.toNat + 32 ≤ 122 := by omega
    generalize c.toNat + 32 = n at h97 h122
    interval_cases n <;> decide
  · rw [if_neg h]
    exact h

/-- Lowercasing fixes characters outside the uppercase range. -/
theorem toLowerChar_eq_self (x : Char) (h : ¬(65 ≤ x.toNat ∧ x.toNat ≤ 90)) :
    toLowerChar x = x := by
  unfold toLowerChar
  rw [if_neg h]

/-- Character-level idempotence of ASCII lowercasing. -/
theorem toLowerChar_idem (c : Char) : toLowerChar (toLowerChar c) = toLowerChar c :=
  toLowerChar_eq_self (toLowerChar c) (toLowerChar_not_upper c)

/-- String-level idempotence of ASCII lowercasing. -/
theorem toLowerStr_idem (s : String) : toLowerStr (toLowerStr s) = toLowerStr s := by
  refine congrArg String.mk ?_
  show (s.data.map toLowerChar).map toLowerChar = s.data.map toLowerChar
  rw [List.map_map]
  exact List.map_congr_left (fun a _ => toLowerChar_idem a)

/-- Every character emitted by the hex renderer is a hex digit character. -/
theorem toHexCore_chars : ∀ (fuel n : Nat), ∀ ch ∈ toHexCore fuel n,
    ∃ k, k < 16 ∧ ch = hexDigitChar k := by
  intro fuel
  induction fuel with
  | zero =>
    intro n ch h
    exact absurd h (List.not_mem_nil ch)
  | succ fuel ih =>
    intro n ch h
    by_cases hn : n < 16
    · have he : toHexCore (fuel + 1) n = [hexDigitChar n] := by simp [toHexCore, hn]
      rw [he] at h
      exact ⟨n, hn, List.mem_singleton.mp h⟩
    · have he : toHexCore (fuel + 1) n =
          toHexCore fuel (n / 16) ++ [hexDigitChar (n % 16)] := by simp [toHexCore, hn]
      rw [he] at h
      rcases List.mem_append.mp h with h1 | h2
      · exact ih (n / 16) ch h1
      · exact ⟨n % 16, Nat.mod_lt n (by decide), List.mem_singleton.mp h2⟩

/-- Characters of a 2-padded list are the pad character or original ones. -/
theorem pad2_chars (l : List Char) : ∀ ch ∈ pad2 l, ch = '0' ∨ ch ∈ l := by
  intro ch h
  unfold pad2 at h
  by_cases hl : l.length < 2
  · rw [if_pos hl] at h
    rcases List.mem_append.mp h with h1 | h2
    · exact Or.inl (List.eq_of_mem_replicate h1)
    · exact Or.inr h2
  · rw [if_neg hl] at h
    exact Or.inr h

/-- Every character of the normalized hex output is `#` or a hex digit. -/
theorem rgbHexString_chars (d1 d2 d3 : List Char) :
    ∀ ch ∈ (rgbHexString d1 d2 d3).data,
      ch = '#' ∨ ∃ k, k < 16 ∧ ch = hexDigitChar k := by
  intro ch h
  have hd : (rgbHexString d1 d2 d3).data =
      '#' :: (pad2 (toHex (digitsToNat d1)) ++ pad2 (toHex (digitsToNat d2)) ++
        pad2 (toHex (digitsToNat d3))) := rfl
  rw [hd] at h
  have hzero : ('0' : Char) = hexDigitChar 0 := by decide
  rcases List.mem_cons.mp h with rfl | h2
  · exact Or.inl rfl
  · rcases List.mem_append.mp h2 with h3 | h4
    · rcases List.mem_append.mp h3 with h5 | h6
      · rcases pad2_chars _ ch h5 with rfl | h7
        · exact Or.inr ⟨0, by decide, hzero⟩
        · exact Or.inr (toHexCore_chars _ _ ch h7)
      · rcases pad2_chars _ ch h6 with rfl | h7
        · exact Or.inr ⟨0, by decide, hzero⟩
        · exact Or.inr (toHexCore_chars _ _ ch h7)
    · rcases pad2_chars _ ch h4 with rfl | h7
      · exact Or.inr ⟨0, by decide, hzero⟩
      · exact Or.inr (toHexCore_chars _ _ ch h7)

/-- A position whose head is not `r` cannot start a regex match. -/
theorem matchAt_none_of_ne_r (c : Char) (l : List Char) (hc : c ≠ 'r') :
    matchAt (c :: l) = none := by
  rcases l with _ | ⟨c2, l2⟩
  · rfl
  · rcases l2 with _ | ⟨c3, l3⟩
    · rfl
    · simp only [matchAt]
      exact if_neg (fun h => hc h.1)

/-- A string without the character `r` has no `rgb(`/`rgba(` match. -/
theorem findRGB_none_of_no_r : ∀ (l : List Char), (∀ ch ∈ l, ch ≠ 'r') →
    findRGB l = none := by
  intro l
  induction l with
  | nil => intro _; rfl
  | cons c rest ih =>
    intro h
    have hm : matchAt (c :: rest) = none :=
      matchAt_none_of_ne_r c rest (h c (List.mem_cons_self c rest))
    simp only [findRGB, hm]
    exact ih (fun ch hch => h ch (List.mem_cons_of_mem c hch))

/-- The normalized hex output is a fixed point of `normalizeColor`: it
contains no `r` (so the regex cannot match) and is already lowercase. -/
theorem normalizeColor_rgbHexString (d1 d2 d3 : List Char) :
    normalizeColor (rgbHexString d1 d2 d3) = rgbHexString d1 d2 d3 := by
  have hhex : ∀ k, k < 16 → hexDigitChar k ≠ 'r' ∧
      toLowerChar (hexDigitChar k) = hexDigitChar k := by decide
  have hner : ∀ ch ∈ (rgbHexString d1 d2 d3).data, ch ≠ 'r' := by
    intro ch hch
    rcases rgbHexString_chars d1 d2 d3 ch hch with rfl | ⟨k, hk, rfl⟩
    · decide
    · exact (hhex k hk).1
  have hnone : findRGB (rgbHexString d1 d2 d3).data = none :=
    findRGB_none_of_no_r _ hner
  have hlower : toLowerStr (rgbHexString d1 d2 d3) = rgbHexString d1 d2 d3 := by
    have hfix : ∀ a ∈ (rgbHexString d1 d2 d3).data, toLowerChar a = id a := by
      intro a ha
      rcases rgbHexString_chars d1 d2 d3 a ha with rfl | ⟨k, hk, rfl⟩
      · decide
      · exact (hhex k hk).2
    have hmap : ((rgbHexString d1 d2 d3).data).map toLowerChar =
        (rgbHexString d1 d2 d3).data := by
      rw [List.map_congr_left hfix, List.map_id]
    exact congrArg String.mk hmap
  simp only [normalizeColor, hnone]
  exact hlower

/-- Once the regex matches, a second normalization changes nothing. -/
theorem normalizeColor_fix_of_match (s : String) (d1 d2 d3 : List Char)
    (h : findRGB s.data = some (d1, d2, d3)) :
    normalizeColor (normalizeColor s) = normalizeColor s := by
  have h1 : normalizeColor s = rgbHexString d1 d2 d3 := by
    simp only [normalizeColor, h]
  rw [h1, normalizeColor_rgbHexString]

/-- C9 counterexample: the regex of `normalizeColor` is case-sensitive, so
`RGB(1, 2, 3)` is merely lowercased to `rgb(1, 2, 3)` on the first pass, and
only the second pass converts it to `#010203` — normalization is not
idempotent on this string. -/
theorem c9_normalize_counterexample :
    normalizeColor (normalizeColor "RGB(1, 2, 3)") ≠ normalizeColor "RGB(1, 2, 3)" := by
  decide

/-- C9 as amended: one application of `normalizeColor` need not be idempotent
(an uppercase `RGB(...)` string is first lowercased into a form the
case-sensitive regex then matches), but the function stabilizes after two
applications: `normalize ∘ normalize` is idempotent on every string, and
`normalize` itself is idempotent on any string it has produced. -/
theorem c9_normalize_eventually_idempotent (s : String) :
    normalizeColor (normalizeColor (normalizeColor s)) =
      normalizeColor (normalizeColor s) := by
  cases h : findRGB s.data with
  | some g =>
    obtain ⟨d1, d2, d3⟩ := g
    have h2 := normalizeColor_fix_of_match s d1 d2 d3 h
    rw [h2]
    exact h2
  | none =>
    have h1 : normalizeColor s = toLowerStr s := by
      simp only [normalizeColor, h]
    rw [h1]
    cases h2 : findRGB (toLowerStr s).data with
    | some g =>
      obtain ⟨d1, d2, d3⟩ := g
      exact normalizeColor_fix_of_match (toLowerStr s) d1 d2 d3 h2
    | none =>
      have h3 : normalizeColor (toLowerStr s) = toLowerStr s := by
        simp only [normalizeColor, h2]
        exact toLowerStr_idem s
      rw [h3]
      exact h3

end Dembrandt
